import Mathlib

/-!
Verification of the avaloniccornwell.com lead-intake server (`src/server.js`,
with the near-duplicate variant `src/unnamed/part_000`).

The JavaScript source is shallowly embedded: route handlers and helpers become
pure Lean functions; the backing `leads.json` file becomes an explicit
`LeadsFile` state threaded through the store operations; the external JSON
library (`JSON.parse` / `JSON.stringify`) is abstracted as a `JsonCodec`
parameter, whose round-trip behaviour is assumed only where a theorem needs it;
a possible `fs.writeFileSync` failure is an explicit boolean oracle passed to
the save path.  Machine integers (`Date.now()`, file sizes) are `Nat`.
-/

namespace Avalonic

/-- Metadata recorded for one uploaded file, as built in the submit route:
`{ path, originalname, mimetype, size }` (server.js lines 84-89). -/
structure FileRec where
  path : String
  originalname : String
  mimetype : String
  size : Nat
deriving DecidableEq, Repr

/-- One lead record, as built in the submit route (server.js lines 91-102). -/
structure Lead where
  id : Nat
  receivedAt : String
  company : String
  contactName : String
  phone : String
  email : String
  amount : String
  sector : String
  message : String
  files : List FileRec
deriving DecidableEq, Repr

/-- State of the backing `leads.json` file: absent, or present with raw text. -/
inductive LeadsFile where
  | absent
  | present (raw : String)
deriving DecidableEq, Repr

/-- Abstraction of the external JSON library as used by the store.
`stringify` models `JSON.stringify(arr, null, 2)` on an array of leads;
`parse` models `JSON.parse` restricted to documents denoting arrays of leads,
with `none` standing for a parse error (`JSON.parse` throwing). -/
structure JsonCodec where
  stringify : List Lead → String
  parse : String → Option (List Lead)

/-- `readLeads()` (server.js lines 38-47): missing file yields `[]`; otherwise
the raw text is read and `JSON.parse(raw || '[]')` is returned, any exception
being caught and turned into `[]`.  JS `raw || '[]'` substitutes `'[]'` exactly
when `raw` is the empty string. -/
def readLeads (C : JsonCodec) : LeadsFile → List Lead
  | .absent => []
  | .present raw =>
      match C.parse (if raw = "" then "[]" else raw) with
      | some arr => arr
      | none => []

/-- The shared body of both `saveLead` variants: read the current array,
`arr.unshift(lead)`, and rewrite the whole file with the stringified array. -/
def saveLeadCore (C : JsonCodec) (st : LeadsFile) (lead : Lead) : LeadsFile :=
  .present (C.stringify (lead :: readLeads C st))

/-- `saveLead` of server.js (lines 48-56): the body is wrapped in
`try/catch` which logs and swallows any write error, so the caller always
continues; on failure the file is modelled as unchanged.
`writeFails` is the oracle for `fs.writeFileSync` throwing. -/
def saveLead (C : JsonCodec) (writeFails : Bool) (st : LeadsFile) (lead : Lead) :
    LeadsFile :=
  if writeFails then st else saveLeadCore C st lead

/-- `saveLead` of the part_000 variant (lines 45-49): no `try/catch`, so a
write error propagates to the caller (modelled as `Except`). -/
def saveLeadPropagate (C : JsonCodec) (writeFails : Bool) (st : LeadsFile)
    (lead : Lead) : Except Unit LeadsFile :=
  if writeFails then .error () else .ok (saveLeadCore C st lead)

/-- JavaScript `a || b` on strings: only the empty string is falsy. -/
def jsOr (a b : String) : String :=
  if a = "" then b else a

/-- Reading a text field from the parsed request body: an absent field is
`undefined`, which behaves like the empty string under `|| ''`.  The body is
modelled as an association list of field name / value pairs. -/
def bget (body : List (String × String)) (k : String) : String :=
  match body.lookup k with
  | some v => v
  | none => ""

/-- The lead construction of the submit route in server.js (lines 91-102):
each known field read with `|| ''` defaulting, `contactName` taking
`body.name || body.contactName || ''`.  `now` stands for `Date.now()` and
`receivedAt` for `new Date().toISOString()`. -/
def buildLead (now : Nat) (receivedAt : String) (body : List (String × String))
    (files : List FileRec) : Lead :=
  { id := now
    receivedAt := receivedAt
    company := jsOr (bget body "company") ""
    contactName := jsOr (bget body "name") (jsOr (bget body "contactName") "")
    phone := jsOr (bget body "phone") ""
    email := jsOr (bget body "email") ""
    amount := jsOr (bget body "amount") ""
    sector := jsOr (bget body "sector") ""
    message := jsOr (bget body "message") ""
    files := files }

/-- The lead construction of the part_000 variant (lines 82-93); identical
except `contactName` is `body.name || ''` with no `contactName` fallback. -/
def buildLeadP (now : Nat) (receivedAt : String) (body : List (String × String))
    (files : List FileRec) : Lead :=
  { buildLead now receivedAt body files with
    contactName := jsOr (bget body "name") "" }

/-- Response of `POST /api/submit`: an HTTP status plus the JSON body fields
(`ok`, and either `id` or `message`). -/
structure SubmitRes where
  status : Nat
  ok : Bool
  id : Option Nat
  message : Option String
deriving DecidableEq, Repr

/-- The `POST /api/submit` handler of server.js (lines 80-146), after multer
has produced the `files` metadata: build the lead, `saveLead(lead)` (which
swallows write errors), and answer `{ok:true, id: lead.id}`.  The optional
e-mail notification (lines 107-139) only performs logged side effects inside
its own `try/catch` and cannot alter the response or the store, so it is not
modelled.  The surrounding `catch` (lines 142-145) would answer
`500 {ok:false, message:'Server error'}`, but with the write error already
swallowed no modelled step can reach it. -/
def submitHandler (C : JsonCodec) (writeFails : Bool) (now : Nat)
    (receivedAt : String) (body : List (String × String)) (files : List FileRec)
    (st : LeadsFile) : SubmitRes × LeadsFile :=
  let lead := buildLead now receivedAt body files
  let st2 := saveLead C writeFails st lead
  ({ status := 200, ok := true, id := some lead.id, message := none }, st2)

/-- The `POST /api/submit` handler of the part_000 variant (lines 72-135):
here `saveLead` propagates a write error, which the route's `catch` turns
into `500 {ok:false, message:'Server error'}`. -/
def submitHandlerP (C : JsonCodec) (writeFails : Bool) (now : Nat)
    (receivedAt : String) (body : List (String × String)) (files : List FileRec)
    (st : LeadsFile) : SubmitRes × LeadsFile :=
  let lead := buildLeadP now receivedAt body files
  match saveLeadPropagate C writeFails st lead with
  | .ok st2 => ({ status := 200, ok := true, id := some lead.id, message := none }, st2)
  | .error _ => ({ status := 500, ok := false, id := none, message := some "Server error" }, st)

/-- The character class `[a-zA-Z0-9.\-_]` of the filename sanitiser
(server.js line 27). -/
def isSafeChar (c : Char) : Bool :=
  if (Char.ofNat 97 ≤ c ∧ c ≤ Char.ofNat 122) ∨ (Char.ofNat 65 ≤ c ∧ c ≤ Char.ofNat 90)
      ∨ (Char.ofNat 48 ≤ c ∧ c ≤ Char.ofNat 57) ∨ c = '.' ∨ c = '-' ∨ c = '_'
  then true else false

/-- `originalname.replace(/[^a-zA-Z0-9.\-_]/g, '_')` (server.js line 27):
every character outside the safe class is replaced by an underscore. -/
def sanitizeChars : List Char → List Char
  | [] => []
  | c :: cs => (if isSafeChar c then c else '_') :: sanitizeChars cs

/-- The on-disk name chosen by the multer storage callback (server.js
lines 25-29): `` `${ts}_${safe}` `` where `ts = Date.now()`. -/
def storageFilename (ts : Nat) (originalname : String) : String :=
  toString ts ++ "_" ++ String.mk (sanitizeChars originalname.data)

/-- The stored name as claimed by the spec: timestamp, separator, and the
original name with every unsafe character stripped (removed).  Stated only
for comparison with `storageFilename`, which follows the source. -/
def specStripFilename (ts : Nat) (originalname : String) : String :=
  toString ts ++ "_" ++ String.mk (originalname.data.filter (fun c => isSafeChar c))

/-- An uploaded file as it arrives in the multipart request, before multer
stores it. -/
structure IncomingFile where
  originalname : String
  mimetype : String
  size : Nat
deriving DecidableEq, Repr

/-- `limits.fileSize` of the multer configuration (server.js line 34). -/
def fileSizeLimit : Nat := 10 * 1024 * 1024

/-- `limits.files` of the multer configuration (server.js line 34); the
part_000 variant caps the count equally via `upload.array('statements', 5)`. -/
def filesLimit : Nat := 5

inductive UploadError where
  | tooManyFiles
  | fileTooLarge
deriving DecidableEq, Repr

/-- Modelled from the spec: the enforcement of the configured upload limits
lives in the multer dependency, not under src/; src only configures
`limits = ... fileSize: 10*1024*1024, files: 5 ...` and the storage filename
callback.  Per the spec (sections 4.1 and 7) a request exceeding the size or
count limit fails before the route handler runs; an accepted file is stored
under `storageFilename` and surfaces in `req.files` with the metadata the
route then copies (`path.join('uploads', path.basename(f.path))` with
backslashes normalised, which on the posix layout is `uploads/` followed by
the stored name). -/
def uploadMiddleware (ts : Nat) (incoming : List IncomingFile) :
    Except UploadError (List FileRec) :=
  if incoming.length > filesLimit then .error .tooManyFiles
  else if incoming.any (fun f => f.size > fileSizeLimit) then .error .fileTooLarge
  else .ok (incoming.map (fun f =>
    { path := "uploads/" ++ storageFilename ts f.originalname
      originalname := f.originalname
      mimetype := f.mimetype
      size := f.size }))

/-- Modelled from the spec: the full `POST /api/submit` pipeline, multer
middleware first, then the route handler of server.js.  On a limit violation
multer aborts the request with a client error (spec sections 4.1 and 7a)
before the handler, and hence the store, is reached. -/
def submitPipeline (C : JsonCodec) (writeFails : Bool) (now ts : Nat)
    (receivedAt : String) (body : List (String × String))
    (incoming : List IncomingFile) (st : LeadsFile) : SubmitRes × LeadsFile :=
  match uploadMiddleware ts incoming with
  | .error _ => ({ status := 400, ok := false, id := none, message := some "Upload limit exceeded" }, st)
  | .ok files => submitHandler C writeFails now receivedAt body files st

/-- The credentials decoded from the Authorization header by `basic-auth`;
`none` models an absent or unparsable header. -/
structure Credentials where
  name : String
  pass : String
deriving DecidableEq, Repr

/-- Outcome of the `requireAuth` middleware: either a rejection response
(status plus the value set for the WWW-Authenticate header) or `next()`. -/
inductive AuthResult where
  | reject (status : Nat) (challenge : String)
  | proceed
deriving DecidableEq, Repr

/-- The challenge value set on rejection (server.js line 69). -/
def challengeHeader : String := "Basic realm=\"Admin\""

/-- `requireAuth` (server.js lines 64-73): credentials absent, or name or
password differing from the configured admin credentials
(`ADMIN_USER || 'admin'`, `ADMIN_PASS || 'password'`), yield
`401` with the challenge header; otherwise `next()` runs the handler. -/
def requireAuth (envUser envPass : Option String) (user : Option Credentials) :
    AuthResult :=
  let adminUser := envUser.getD "admin"
  let adminPass := envPass.getD "password"
  match user with
  | none => .reject 401 challengeHeader
  | some u =>
      if u.name ≠ adminUser ∨ u.pass ≠ adminPass then .reject 401 challengeHeader
      else .proceed

/-- A plain HTTP response with the one header this server ever sets. -/
structure HttpRes where
  status : Nat
  wwwAuthenticate : Option String
  body : String
deriving DecidableEq, Repr

/-- The response `requireAuth` sends on rejection (server.js lines 69-70). -/
def authFailRes : HttpRes :=
  { status := 401, wwwAuthenticate := some challengeHeader, body := "Authentication required." }

/-- The single-quote character, kept as a named constant. -/
def squote : Char := Char.ofNat 39

/-- The per-character replacement of `escapeHtml` (server.js lines 59-61):
the five HTML-special characters map to their entities, all others stay. -/
def escapeChar (c : Char) : String :=
  if c = '&' then "&amp;"
  else if c = '<' then "&lt;"
  else if c = '>' then "&gt;"
  else if c = '"' then "&quot;"
  else if c = squote then "&#39;"
  else String.singleton c

/-- Character-list form of the global regex replace in `escapeHtml`: a
single-character class replaced with a callback is a per-character map. -/
def escList : List Char → List Char
  | [] => []
  | c :: cs => (escapeChar c).data ++ escList cs

/-- `escapeHtml` (server.js lines 59-61). -/
def escapeHtml (s : String) : String :=
  String.mk (escList s.data)

/-- One file link of the admin table (server.js line 159). -/
def renderFileLink (f : FileRec) : String :=
  "<a class=\"file\" href=\"/" ++ escapeHtml f.path ++ "\" target=\"_blank\">"
    ++ escapeHtml f.originalname ++ "</a>"

/-- One table row of the admin page (server.js lines 159-160); `loc` models
`s => new Date(s).toLocaleString()`. -/
def renderRow (loc : String → String) (l : Lead) : String :=
  "<tr><td>" ++ escapeHtml (loc l.receivedAt)
    ++ "</td><td>" ++ escapeHtml l.company
    ++ "</td><td>" ++ escapeHtml l.contactName
    ++ "</td><td>" ++ escapeHtml l.email
    ++ "</td><td>" ++ escapeHtml l.phone
    ++ "</td><td>" ++ escapeHtml l.amount
    ++ "</td><td>" ++ String.intercalate " " (l.files.map renderFileLink)
    ++ "</td></tr>"

/-- The fixed page prefix of the admin view (server.js lines 154-157), up to
and including `<tbody>`; literal braces in the inline CSS are written with
their character codes. -/
def adminHeader (total : Nat) : String :=
  "<!doctype html><html><head><meta charset=\"utf-8\"><title>Avalonic Admin</title>\n"
    ++ "  <meta name=\"viewport\" content=\"width=device-width,initial-scale=1\" />\n"
    ++ "  <style>body\x7bfont-family:Arial,Helvetica,sans-serif;color:#0b2545;padding:18px\x7d"
    ++ "table\x7bwidth:100%;border-collapse:collapse\x7d"
    ++ "th,td\x7bpadding:8px;border-bottom:1px solid #eee;text-align:left\x7d"
    ++ "th\x7bbackground:#f6fbff\x7d"
    ++ "a.file\x7bdisplay:inline-block;margin-right:6px;padding:4px;border:1px solid #eef6ff;"
    ++ "border-radius:6px;text-decoration:none;color:#0b2545\x7d</style>\n"
    ++ "  </head><body><h1>Avalonic Cornwell Funding — Admin</h1><p>Total leads: "
    ++ toString total
    ++ "</p><table><thead><tr><th>Date</th><th>Company</th><th>Contact</th><th>Email</th>"
    ++ "<th>Phone</th><th>Amount</th><th>Files</th></tr></thead><tbody>"

/-- The whole admin page body (server.js lines 153-163): header, one row per
lead in store order, closing tags. -/
def renderAdmin (loc : String → String) (leads : List Lead) : String :=
  adminHeader leads.length
    ++ String.join (leads.map (renderRow loc))
    ++ "</tbody></table></body></html>"

/-- `GET /admin` (server.js lines 152-164): `requireAuth` first; on rejection
the 401 response is sent and the handler body never runs (the `Except.error`
branch), otherwise the rendered page is sent. -/
def adminRoute (C : JsonCodec) (envUser envPass : Option String)
    (creds : Option Credentials) (loc : String → String) (st : LeadsFile) :
    Except HttpRes String :=
  match requireAuth envUser envPass creds with
  | .reject s ch => .error { status := s, wwwAuthenticate := some ch, body := "Authentication required." }
  | .proceed => .ok (renderAdmin loc (readLeads C st))

/-- JSON body of a successful `GET /api/leads`. -/
structure LeadsRes where
  ok : Bool
  total : Nat
  leads : List Lead
deriving DecidableEq, Repr

/-- `GET /api/leads` (server.js lines 166-169): `requireAuth` first; on
success `{ok:true, total: leads.length, leads}`. -/
def apiLeads (C : JsonCodec) (envUser envPass : Option String)
    (creds : Option Credentials) (st : LeadsFile) : Except HttpRes LeadsRes :=
  match requireAuth envUser envPass creds with
  | .reject s ch => .error { status := s, wwwAuthenticate := some ch, body := "Authentication required." }
  | .proceed => .ok { ok := true, total := (readLeads C st).length, leads := readLeads C st }

/-- The form field names the submit route reads from the body (server.js
lines 94-100); every other body field is ignored. -/
def knownKeys : List String :=
  ["company", "name", "contactName", "phone", "email", "amount", "sector", "message"]

/-- The four characters that may open markup or break out of an attribute;
`escapeHtml` must leave none of them in its output (ampersands are tracked
separately, since the emitted entities contain them). -/
def isMarkupChar (c : Char) : Bool :=
  c = '<' || c = '>' || c = '"' || c = squote

/-- The tails (after the ampersand) of the five entities `escapeHtml` emits. -/
def entityTails : List (List Char) :=
  [String.data "amp;", String.data "lt;", String.data "gt;",
   String.data "quot;", String.data "#39;"]

/-- Every ampersand in the list opens one of the five known entities: the
sense in which escaped output contains no raw ampersand. -/
def ampOk : List Char → Bool
  | [] => true
  | c :: cs =>
      (if c = '&' then entityTails.any (fun e => e.isPrefixOf cs) else true) && ampOk cs

/-- A concrete lead used to exercise the definitions. -/
def demoLead : Lead :=
  { id := 1
    receivedAt := "2026-01-01T00:00:00.000Z"
    company := "Acme"
    contactName := "Ada"
    phone := "1"
    email := "a@acme.test"
    amount := "10"
    sector := "mining"
    message := "hi"
    files := [] }

/-- A second concrete lead, distinct from `demoLead`. -/
def demoLead2 : Lead :=
  { demoLead with id := 2, company := "Bcme" }

/-- A concrete `receivedAt` value. -/
def demoRAt : String := "2026-01-01T00:00:00.000Z"

/-- A concrete codec: an injective encoding of the few concrete lead lists the
examples touch, with the JSON-library properties (`parse "[]" = some []`,
round trip, nonempty output) holding at those points.  It instantiates the
codec hypotheses of the store theorems. -/
def demoCodec : JsonCodec where
  stringify l :=
    if l = [demoLead2, demoLead] then "D21"
    else if l = [demoLead] then "D1"
    else if l = [demoLead2] then "D2"
    else "[]"
  parse s :=
    if s = "[]" then some []
    else if s = "D1" then some [demoLead]
    else if s = "D2" then some [demoLead2]
    else if s = "D21" then some [demoLead2, demoLead]
    else none

/-- A concrete request body whose `buildLead` image is `demoLead2` (with
`now = 2`, `receivedAt = demoRAt`, no files). -/
def demoBody : List (String × String) :=
  [("company", "Bcme"), ("name", "Ada"), ("phone", "1"), ("email", "a@acme.test"),
   ("amount", "10"), ("sector", "mining"), ("message", "hi")]

/-- A second concrete body differing from `demoBody`, with most fields
absent. -/
def demoBodyB : List (String × String) :=
  [("company", "Other"), ("unknownField", "junk")]

/-- An original filename containing a character outside the safe class. -/
def nameWithSpace : String := "a b"

/-- A field value trying to inject markup. -/
def scriptStr : String := "<script>"

/-- A small incoming upload. -/
def smallFile : IncomingFile :=
  { originalname := "a.txt", mimetype := "text/plain", size := 1 }

/-- Six small files: one more than the configured count limit. -/
def sixFiles : List IncomingFile := List.replicate 6 smallFile

/-! ## Helper lemmas -/

theorem jsOr_empty (a : String) : jsOr a "" = a := by
  unfold jsOr
  split <;> simp_all

theorem readLeads_present (C : JsonCodec) (raw : String) (l : List Lead)
    (hne : raw ≠ "") (hp : C.parse raw = some l) :
    readLeads C (.present raw) = l := by
  simp [readLeads, hne, hp]

theorem sanitizeChars_eq_map (cs : List Char) :
    sanitizeChars cs = cs.map (fun c => if isSafeChar c then c else '_') := by
  induction cs with
  | nil => rfl
  | cons a cs ih => simp [sanitizeChars, ih]

theorem sanitizeChars_safe (cs : List Char) :
    ∀ c ∈ sanitizeChars cs, isSafeChar c = true := by
  induction cs with
  | nil => intro c hc; cases hc
  | cons a cs ih =>
    intro c hc
    rw [sanitizeChars] at hc
    rcases List.mem_cons.mp hc with h | h
    · subst h
      by_cases ha : isSafeChar a = true
      · rw [if_pos ha]; exact ha
      · rw [if_neg ha]; decide
    · exact ih c h

theorem lookup_filter_known (body : List (String × String)) (k : String)
    (hk : knownKeys.contains k = true) :
    (body.filter (fun p => knownKeys.contains p.1)).lookup k = body.lookup k := by
  induction body with
  | nil => rfl
  | cons a body ih =>
    obtain ⟨k1, v1⟩ := a
    rw [List.filter_cons]
    by_cases he : k = k1
    · subst he
      have hc : (fun p : String × String => knownKeys.contains p.1) (k, v1) = true := hk
      simp only [if_pos hc, List.lookup_cons, beq_self_eq_true]
    · have hbf : (k == k1) = false := beq_false_of_ne he
      by_cases hm : knownKeys.contains k1 = true
      · have hc : (fun p : String × String => knownKeys.contains p.1) (k1, v1) = true := hm
        simp only [if_pos hc, List.lookup_cons, hbf]
        exact ih
      · have hc : ¬((fun p : String × String => knownKeys.contains p.1) (k1, v1) = true) := hm
        simp only [if_neg hc, List.lookup_cons, hbf]
        exact ih

theorem bget_none (body : List (String × String)) (k : String)
    (h : body.lookup k = none) : bget body k = "" := by
  unfold bget
  rw [h]

theorem escapeChar_markupFree (c : Char) :
    ∀ d ∈ (escapeChar c).data, isMarkupChar d = false := by
  unfold escapeChar
  by_cases h1 : c = '&'
  · rw [if_pos h1]; decide
  rw [if_neg h1]
  by_cases h2 : c = '<'
  · rw [if_pos h2]; decide
  rw [if_neg h2]
  by_cases h3 : c = '>'
  · rw [if_pos h3]; decide
  rw [if_neg h3]
  by_cases h4 : c = '"'
  · rw [if_pos h4]; decide
  rw [if_neg h4]
  by_cases h5 : c = squote
  · rw [if_pos h5]; decide
  rw [if_neg h5]
  intro d hd
  have hd' : d = c := by simpa [String.singleton] using hd
  subst hd'
  simp [isMarkupChar, h2, h3, h4, h5]

theorem escList_markupFree (cs : List Char) :
    ∀ d ∈ escList cs, isMarkupChar d = false := by
  induction cs with
  | nil => intro d hd; cases hd
  | cons c cs ih =>
    intro d hd
    rw [escList] at hd
    rcases List.mem_append.mp hd with h | h
    · exact escapeChar_markupFree c d h
    · exact ih d h

theorem ampOk_append_escapeChar (c : Char) (rest : List Char)
    (hrest : ampOk rest = true) :
    ampOk ((escapeChar c).data ++ rest) = true := by
  unfold escapeChar
  by_cases h1 : c = '&'
  · rw [if_pos h1]
    simp [ampOk, entityTails, List.isPrefixOf, hrest]
  rw [if_neg h1]
  by_cases h2 : c = '<'
  · rw [if_pos h2]
    simp [ampOk, entityTails, List.isPrefixOf, hrest]
  rw [if_neg h2]
  by_cases h3 : c = '>'
  · rw [if_pos h3]
    simp [ampOk, entityTails, List.isPrefixOf, hrest]
  rw [if_neg h3]
  by_cases h4 : c = '"'
  · rw [if_pos h4]
    simp [ampOk, entityTails, List.isPrefixOf, hrest]
  rw [if_neg h4]
  by_cases h5 : c = squote
  · rw [if_pos h5]
    simp [ampOk, entityTails, List.isPrefixOf, hrest]
  rw [if_neg h5]
  simp [String.singleton, ampOk, h1, hrest]

theorem ampOk_escList (cs : List Char) : ampOk (escList cs) = true := by
  induction cs with
  | nil => rfl
  | cons c cs ih =>
    rw [escList]
    exact ampOk_append_escapeChar c (escList cs) ih

/-! ## Claim C1 -/

/-- Claim C1 is false on server.js as written: its `saveLead` catches the
write error itself, so a submission whose store write fails still gets the
`200 {ok:true, id}` answer.  Concrete run: write fails, yet the response is
`ok:true` with the lead's id. -/
theorem submit_writeFailure_cex :
    (submitHandler demoCodec true 5 demoRAt demoBody [] .absent).1
      = { status := 200, ok := true, id := some 5, message := none } := by
  decide

/-- Claim C1 (amended): when the Lead Store write fails, the part_000 variant
of `POST /api/submit` answers `500 {ok:false, message:'Server error'}` and
leaves the store unchanged; the server.js variant swallows the write error
inside `saveLead` and answers `200 {ok:true, id}` even though nothing was
persisted. -/
theorem submit_writeFailure_amended (C : JsonCodec) (now : Nat) (rAt : String)
    (body : List (String × String)) (files : List FileRec) (st : LeadsFile) :
    (submitHandlerP C true now rAt body files st).1
      = { status := 500, ok := false, id := none, message := some "Server error" }
    ∧ (submitHandlerP C true now rAt body files st).2 = st
    ∧ (submitHandler C true now rAt body files st).1
      = { status := 200, ok := true, id := some now, message := none }
    ∧ (submitHandler C true now rAt body files st).2 = st :=
  ⟨rfl, rfl, rfl, rfl⟩

/-! ## Claim C2 -/

/-- Claim C2 is false as stated: the sanitiser replaces each character outside
`[A-Za-z0-9.\-_]` with an underscore instead of removing it, so for `"a b"`
the stored name is `1_a_b`, not the `1_ab` the strip reading demands. -/
theorem storageFilename_strip_cex :
    storageFilename 1 nameWithSpace ≠ specStripFilename 1 nameWithSpace := by
  decide

/-- Claim C2 (amended): the stored name is the millisecond timestamp, an
underscore, and the original name with every character outside
`[A-Za-z0-9.\-_]` replaced by an underscore (not removed): the sanitised name
keeps its length, consists solely of safe characters, and is the per-character
replacement image of the original. -/
theorem storageFilename_amended (ts : Nat) (name : String) :
    storageFilename ts name = toString ts ++ "_" ++ String.mk (sanitizeChars name.data)
    ∧ (sanitizeChars name.data).length = name.data.length
    ∧ (∀ c, c ∈ sanitizeChars name.data → isSafeChar c = true)
    ∧ sanitizeChars name.data = name.data.map (fun c => if isSafeChar c then c else '_') := by
  refine ⟨rfl, ?_, sanitizeChars_safe name.data, sanitizeChars_eq_map name.data⟩
  rw [sanitizeChars_eq_map]
  simp

/-- Witness for the amended C2 at a concrete input: the underscore introduced
for the space in `"a b"` is in the sanitised output and is safe. -/
theorem storageFilename_amended_witness :
    ('_' ∈ sanitizeChars nameWithSpace.data) ∧ isSafeChar '_' = true :=
  ⟨by decide, (storageFilename_amended 1 nameWithSpace).2.2.1 '_' (by decide)⟩

/-! ## Claim C9 -/

/-- Claim C9 is false as stated: two submissions handled in the same
millisecond (`Date.now()` returning 5 for both) build distinct leads with
identical ids. -/
theorem leadId_unique_cex :
    buildLead 5 demoRAt demoBody [] ≠ buildLead 5 demoRAt demoBodyB []
    ∧ (buildLead 5 demoRAt demoBody []).id = (buildLead 5 demoRAt demoBodyB []).id := by
  constructor
  · decide
  · decide

/-- Claim C9 (amended): a lead's id is the `Date.now()` millisecond at its
creation, so a lead created at a strictly later millisecond has a strictly
greater (hence distinct) id; leads created within one millisecond share an id
and uniqueness is not guaranteed. -/
theorem leadId_amended (n1 n2 : Nat) (r1 r2 : String)
    (b1 b2 : List (String × String)) (f1 f2 : List FileRec) (h : n1 < n2) :
    (buildLead n1 r1 b1 f1).id < (buildLead n2 r2 b2 f2).id
    ∧ (buildLead n1 r1 b1 f1).id ≠ (buildLead n2 r2 b2 f2).id :=
  ⟨h, Nat.ne_of_lt h⟩

/-- Witness for the amended C9 at concrete creation times 1 and 2. -/
theorem leadId_amended_witness :
    (buildLead 1 demoRAt demoBody []).id < (buildLead 2 demoRAt demoBodyB []).id
    ∧ (buildLead 1 demoRAt demoBody []).id ≠ (buildLead 2 demoRAt demoBodyB []).id :=
  leadId_amended 1 2 demoRAt demoRAt demoBody demoBodyB [] [] (by decide)

/-! ## Claim C3 -/

/-- Claim C3: `readLeads` returns the empty sequence, raising nothing, when
the backing file is absent, empty, or unparsable (modelled by `parse`
returning `none`), and returns the parsed array itself when the file holds a
valid JSON array of leads.  The only JSON-library fact used is that `'[]'`
parses to the empty array (for the `raw || '[]'` substitution on an empty
file). -/
theorem readLeads_spec (C : JsonCodec) (raw : String) (l : List Lead)
    (hE : C.parse "[]" = some []) :
    readLeads C .absent = []
    ∧ readLeads C (.present "") = []
    ∧ (raw ≠ "" → C.parse raw = none → readLeads C (.present raw) = [])
    ∧ (raw ≠ "" → C.parse raw = some l → readLeads C (.present raw) = l) := by
  refine ⟨rfl, ?_, ?_, ?_⟩
  · simp [readLeads, hE]
  · intro hraw hp
    simp [readLeads, hraw, hp]
  · intro hraw hp
    simp [readLeads, hraw, hp]

/-- Witness for C3 with the concrete codec: an absent file, an empty file,
a corrupt file, and a file holding the encoding of `[demoLead]`. -/
theorem readLeads_spec_witness :
    readLeads demoCodec .absent = []
    ∧ readLeads demoCodec (.present "") = []
    ∧ readLeads demoCodec (.present "corrupt") = []
    ∧ readLeads demoCodec (.present "D1") = [demoLead] := by
  have h := readLeads_spec demoCodec "D1" [demoLead] (by decide)
  have hc := readLeads_spec demoCodec "corrupt" [] (by decide)
  exact ⟨h.1, h.2.1, hc.2.2.1 (by decide) (by decide), h.2.2.2 (by decide) (by decide)⟩

/-! ## Claim C4 -/

/-- Claim C4: appending a lead (server.js `saveLead`, successful write) and
then reading yields the new lead consed onto exactly the sequence the store
held before, and `GET /api/leads` with the configured credentials then
answers `ok` with that lead at the head.  The JSON-library facts used are the
round trip on the written array and that `stringify` never returns the empty
string. -/
theorem saveLead_readLeads_head (C : JsonCodec) (st : LeadsFile) (lead : Lead)
    (envUser envPass : Option String)
    (hrt : C.parse (C.stringify (lead :: readLeads C st)) = some (lead :: readLeads C st))
    (hne : C.stringify (lead :: readLeads C st) ≠ "") :
    readLeads C (saveLead C false st lead) = lead :: readLeads C st
    ∧ apiLeads C envUser envPass
        (some ⟨envUser.getD "admin", envPass.getD "password"⟩)
        (saveLead C false st lead)
      = .ok { ok := true, total := (lead :: readLeads C st).length,
              leads := lead :: readLeads C st } := by
  have h1 : readLeads C (saveLead C false st lead) = lead :: readLeads C st := by
    show readLeads C (.present (C.stringify (lead :: readLeads C st))) = _
    exact readLeads_present C _ _ hne hrt
  refine ⟨h1, ?_⟩
  unfold apiLeads requireAuth
  simp [h1]

/-- Witness for C4 with the concrete codec: the store holds the encoding of
`[demoLead]`, `demoLead2` is appended, and the head of the read-back (and of
the `GET /api/leads` body) is `demoLead2`. -/
theorem saveLead_readLeads_head_witness :
    readLeads demoCodec (saveLead demoCodec false (.present "D1") demoLead2)
      = [demoLead2, demoLead]
    ∧ apiLeads demoCodec none none (some ⟨"admin", "password"⟩)
        (saveLead demoCodec false (.present "D1") demoLead2)
      = .ok { ok := true, total := 2, leads := [demoLead2, demoLead] } := by
  have h := saveLead_readLeads_head demoCodec (.present "D1") demoLead2 none none
    (by decide) (by decide)
  have h2 : readLeads demoCodec (.present "D1") = [demoLead] := by decide
  constructor
  · rw [h.1, h2]
  · have h3 := h.2
    rw [h2] at h3
    simpa using h3

/-! ## Claim C5 -/

/-- Claim C5: a request to `GET /admin` or `GET /api/leads` whose Basic-Auth
credentials are absent, or whose name or password differs from the configured
admin credentials, is answered `401` with the `WWW-Authenticate` challenge,
and the route handler body is never reached (both routes short-circuit to the
rejection response). -/
theorem requireAuth_reject (envUser envPass : Option String)
    (creds : Option Credentials) (C : JsonCodec) (loc : String → String)
    (st : LeadsFile)
    (h : creds = none
      ∨ ∃ u, creds = some u
          ∧ (u.name ≠ envUser.getD "admin" ∨ u.pass ≠ envPass.getD "password")) :
    requireAuth envUser envPass creds = .reject 401 challengeHeader
    ∧ adminRoute C envUser envPass creds loc st = .error authFailRes
    ∧ apiLeads C envUser envPass creds st = .error authFailRes := by
  have hra : requireAuth envUser envPass creds = .reject 401 challengeHeader := by
    rcases h with h | ⟨u, hu, hne⟩
    · subst h; rfl
    · subst hu
      show (if u.name ≠ envUser.getD "admin" ∨ u.pass ≠ envPass.getD "password"
            then AuthResult.reject 401 challengeHeader else AuthResult.proceed)
          = AuthResult.reject 401 challengeHeader
      rw [if_pos hne]
  refine ⟨hra, ?_, ?_⟩
  · unfold adminRoute
    rw [hra]
    rfl
  · unfold apiLeads
    rw [hra]
    rfl

/-- Witness for C5: wrong password on `GET /api/leads`, default config. -/
theorem requireAuth_reject_witness :
    requireAuth none none (some ⟨"admin", "wrong"⟩) = .reject 401 challengeHeader
    ∧ apiLeads demoCodec none none (some ⟨"admin", "wrong"⟩) .absent = .error authFailRes := by
  have h := requireAuth_reject none none (some ⟨"admin", "wrong"⟩) demoCodec id .absent
    (Or.inr ⟨⟨"admin", "wrong"⟩, rfl, Or.inr (by decide)⟩)
  exact ⟨h.1, h.2.2⟩

/-! ## Claim C10 -/

/-- Claim C10: on a successful submission the id in the `{ok:true, id}`
response equals the id of the lead that the same request put at the head of
the store. -/
theorem submit_response_id (C : JsonCodec) (now : Nat) (rAt : String)
    (body : List (String × String)) (files : List FileRec) (st : LeadsFile)
    (hrt : C.parse (C.stringify (buildLead now rAt body files :: readLeads C st))
          = some (buildLead now rAt body files :: readLeads C st))
    (hne : C.stringify (buildLead now rAt body files :: readLeads C st) ≠ "") :
    (submitHandler C false now rAt body files st).1.ok = true
    ∧ (submitHandler C false now rAt body files st).1.status = 200
    ∧ (submitHandler C false now rAt body files st).1.id
        = some (buildLead now rAt body files).id
    ∧ (readLeads C (submitHandler C false now rAt body files st).2).head?
        = some (buildLead now rAt body files) := by
  refine ⟨rfl, rfl, rfl, ?_⟩
  have h1 : readLeads C (submitHandler C false now rAt body files st).2
      = buildLead now rAt body files :: readLeads C st := by
    show readLeads C (.present (C.stringify (buildLead now rAt body files :: readLeads C st))) = _
    exact readLeads_present C _ _ hne hrt
  rw [h1]
  rfl

/-- Witness for C10 with the concrete codec: the submission that builds
`demoLead2` over a store holding the encoding of `[demoLead]` answers
`id = 2`, the id of the lead now at the head. -/
theorem submit_response_id_witness :
    (submitHandler demoCodec false 2 demoRAt demoBody [] (.present "D1")).1.ok = true
    ∧ (submitHandler demoCodec false 2 demoRAt demoBody [] (.present "D1")).1.status = 200
    ∧ (submitHandler demoCodec false 2 demoRAt demoBody [] (.present "D1")).1.id
        = some (buildLead 2 demoRAt demoBody []).id
    ∧ (readLeads demoCodec (submitHandler demoCodec false 2 demoRAt demoBody [] (.present "D1")).2).head?
        = some (buildLead 2 demoRAt demoBody []) :=
  submit_response_id demoCodec 2 demoRAt demoBody [] (.present "D1")
    (by decide) (by decide)

/-! ## Claim C6 -/

/-- Claim C6: the constructed lead takes each of its known text fields from
the corresponding form field (`contactName` from `name`, falling back to
`contactName`), every known field missing from the body becomes the empty
string, and body fields outside the known set are ignored (filtering the body
down to the known keys leaves the lead unchanged). -/
theorem buildLead_fields (now : Nat) (rAt : String) (body : List (String × String))
    (files : List FileRec) :
    (buildLead now rAt body files).company = bget body "company"
    ∧ (buildLead now rAt body files).contactName
        = jsOr (bget body "name") (bget body "contactName")
    ∧ (buildLead now rAt body files).phone = bget body "phone"
    ∧ (buildLead now rAt body files).email = bget body "email"
    ∧ (buildLead now rAt body files).amount = bget body "amount"
    ∧ (buildLead now rAt body files).sector = bget body "sector"
    ∧ (buildLead now rAt body files).message = bget body "message"
    ∧ (buildLead now rAt body files).files = files
    ∧ buildLead now rAt body files
        = buildLead now rAt (body.filter (fun p => knownKeys.contains p.1)) files
    ∧ (body.lookup "company" = none → (buildLead now rAt body files).company = "")
    ∧ (body.lookup "name" = none → body.lookup "contactName" = none →
        (buildLead now rAt body files).contactName = "")
    ∧ (body.lookup "phone" = none → (buildLead now rAt body files).phone = "")
    ∧ (body.lookup "email" = none → (buildLead now rAt body files).email = "")
    ∧ (body.lookup "amount" = none → (buildLead now rAt body files).amount = "")
    ∧ (body.lookup "sector" = none → (buildLead now rAt body files).sector = "")
    ∧ (body.lookup "message" = none → (buildLead now rAt body files).message = "") := by
  have hb : ∀ k, knownKeys.contains k = true →
      bget (body.filter (fun p => knownKeys.contains p.1)) k = bget body k := by
    intro k hk
    unfold bget
    rw [lookup_filter_known body k hk]
  refine ⟨jsOr_empty _, ?_, jsOr_empty _, jsOr_empty _, jsOr_empty _, jsOr_empty _,
    jsOr_empty _, rfl, ?_, ?_, ?_, ?_, ?_, ?_, ?_, ?_⟩
  · show jsOr (bget body "name") (jsOr (bget body "contactName") "") = _
    rw [jsOr_empty]
  · simp only [buildLead]
    rw [hb "company" (by decide), hb "name" (by decide), hb "contactName" (by decide),
      hb "phone" (by decide), hb "email" (by decide), hb "amount" (by decide),
      hb "sector" (by decide), hb "message" (by decide)]
  · intro h
    show jsOr (bget body "company") "" = ""
    rw [bget_none body _ h, jsOr_empty]
  · intro h1 h2
    show jsOr (bget body "name") (jsOr (bget body "contactName") "") = ""
    rw [bget_none body _ h1, bget_none body _ h2]
    rfl
  · intro h
    show jsOr (bget body "phone") "" = ""
    rw [bget_none body _ h, jsOr_empty]
  · intro h
    show jsOr (bget body "email") "" = ""
    rw [bget_none body _ h, jsOr_empty]
  · intro h
    show jsOr (bget body "amount") "" = ""
    rw [bget_none body _ h, jsOr_empty]
  · intro h
    show jsOr (bget body "sector") "" = ""
    rw [bget_none body _ h, jsOr_empty]
  · intro h
    show jsOr (bget body "message") "" = ""
    rw [bget_none body _ h, jsOr_empty]

/-- Witness for C6 at a concrete body: `demoBodyB` has no `phone` field, so
the lead's phone is empty, and its unknown field `unknownField` is ignored. -/
theorem buildLead_fields_witness :
    (buildLead 5 demoRAt demoBodyB []).phone = ""
    ∧ buildLead 5 demoRAt demoBodyB []
        = buildLead 5 demoRAt (demoBodyB.filter (fun p => knownKeys.contains p.1)) [] := by
  have h := buildLead_fields 5 demoRAt demoBodyB []
  exact ⟨h.2.2.2.2.2.2.2.2.2.2.2.1 (by decide), h.2.2.2.2.2.2.2.2.1⟩

/-! ## Claim C7 -/

/-- Claim C7: the admin rendering passes every rendered field value (and every
file link value) through `escapeHtml`, whose output never contains a raw
`<`, `>`, `"` or `'`, and in which every ampersand opens one of the five
emitted entities — so a field containing `<script>` (or any of the special
characters) contributes no unescaped markup characters. -/
theorem adminRendering_escapes (l : Lead) (loc : String → String) (s : String) :
    (∀ c, c ∈ (escapeHtml s).data → isMarkupChar c = false)
    ∧ ampOk (escapeHtml s).data = true
    ∧ renderRow loc l
        = "<tr><td>" ++ escapeHtml (loc l.receivedAt)
          ++ "</td><td>" ++ escapeHtml l.company
          ++ "</td><td>" ++ escapeHtml l.contactName
          ++ "</td><td>" ++ escapeHtml l.email
          ++ "</td><td>" ++ escapeHtml l.phone
          ++ "</td><td>" ++ escapeHtml l.amount
          ++ "</td><td>" ++ String.intercalate " " (l.files.map renderFileLink)
          ++ "</td></tr>"
    ∧ (∀ f : FileRec, renderFileLink f
        = "<a class=\"file\" href=\"/" ++ escapeHtml f.path ++ "\" target=\"_blank\">"
          ++ escapeHtml f.originalname ++ "</a>") :=
  ⟨fun c hc => escList_markupFree s.data c hc, ampOk_escList s.data, rfl, fun _ => rfl⟩

/-- Witness for C7 at the concrete field value `<script>`. -/
theorem adminRendering_escapes_witness :
    ('s' ∈ (escapeHtml scriptStr).data) ∧ isMarkupChar 's' = false :=
  ⟨by decide, (adminRendering_escapes demoLead id scriptStr).1 's' (by decide)⟩

/-! ## Claim C8 -/

/-- Claim C8: an accepted multipart submission carries at most 5 files, each
of at most `10 * 1024 * 1024` bytes; a request with a sixth file or with a
file over the size limit is rejected by the upload middleware with a client
error and the store is left untouched (no lead reaches it). -/
theorem uploadLimits (C : JsonCodec) (wf : Bool) (now ts : Nat) (rAt : String)
    (body : List (String × String)) (incoming : List IncomingFile)
    (st : LeadsFile) :
    (∀ files, uploadMiddleware ts incoming = .ok files →
        files.length ≤ 5 ∧ ∀ f ∈ files, f.size ≤ 10 * 1024 * 1024)
    ∧ ((6 ≤ incoming.length ∨ ∃ f ∈ incoming, 10 * 1024 * 1024 < f.size) →
        (submitPipeline C wf now ts rAt body incoming st).1.status = 400
        ∧ (submitPipeline C wf now ts rAt body incoming st).1.ok = false
        ∧ (submitPipeline C wf now ts rAt body incoming st).1.message ≠ none
        ∧ (submitPipeline C wf now ts rAt body incoming st).2 = st) := by
  constructor
  · intro files hok
    unfold uploadMiddleware at hok
    by_cases h1 : incoming.length > filesLimit
    · rw [if_pos h1] at hok
      simp at hok
    rw [if_neg h1] at hok
    by_cases h2 : incoming.any (fun f => f.size > fileSizeLimit) = true
    · rw [if_pos h2] at hok
      simp at hok
    rw [if_neg h2] at hok
    injection hok with hok
    subst hok
    constructor
    · simp only [List.length_map]
      simp only [filesLimit] at h1
      omega
    · intro f hf
      obtain ⟨a, ha, rfl⟩ := List.mem_map.mp hf
      have h2a : a.size ≤ fileSizeLimit := by
        by_contra hgt
        exact h2 (List.any_eq_true.mpr ⟨a, ha, by simp only [decide_eq_true_eq]; omega⟩)
      simp only [fileSizeLimit] at h2a
      show a.size ≤ 10 * 1024 * 1024
      omega
  · intro h
    have herr : ∃ e, uploadMiddleware ts incoming = .error e := by
      unfold uploadMiddleware
      by_cases h1 : incoming.length > filesLimit
      · exact ⟨.tooManyFiles, by rw [if_pos h1]⟩
      rcases h with h6 | ⟨f, hf, hbig⟩
      · exact absurd (by simp only [filesLimit]; omega) h1
      · have h2 : incoming.any (fun f => f.size > fileSizeLimit) = true := by
          simp only [List.any_eq_true]
          exact ⟨f, hf, by simp only [fileSizeLimit]; simpa using hbig⟩
        exact ⟨.fileTooLarge, by rw [if_neg h1, if_pos h2]⟩
    obtain ⟨e, he⟩ := herr
    unfold submitPipeline
    rw [he]
    exact ⟨rfl, rfl, by simp, rfl⟩

/-- Witness for C8: six one-byte files are rejected with a client error and
an absent store stays absent. -/
theorem uploadLimits_witness :
    (submitPipeline demoCodec false 1 1 demoRAt [] sixFiles .absent).1.status = 400
    ∧ (submitPipeline demoCodec false 1 1 demoRAt [] sixFiles .absent).1.ok = false
    ∧ (submitPipeline demoCodec false 1 1 demoRAt [] sixFiles .absent).1.message ≠ none
    ∧ (submitPipeline demoCodec false 1 1 demoRAt [] sixFiles .absent).2 = .absent :=
  (uploadLimits demoCodec false 1 1 demoRAt [] sixFiles .absent).2 (Or.inl (by decide))

end Avalonic
